import Mathlib

/-!
Verification development for the `minigh` request engine (a retrying HTTP
client for the GitHub REST API).  The definitions below are a shallow
embedding of the Rust sources:

- `src/lib.rs`: `Client::request` (mutation throttle + retry loop),
  `Method`, `StatusError`, `RequestError`;
- `src/util.rs`: `Retrier` (attempt counter, deadline, backoff, 403
  sub-protocol), `ReadableResponse::pretty_body`, `is_json_content_type`,
  `time_till_timestamp`;
- `src/page.rs`: the page decoder (`RawPage` / `MapPageValue` /
  `TryFrom<RawPage<T>> for Page<T>`) and `PaginationIter::next`.

Modelling conventions:

- Time (both the monotonic `Instant` clock and the `SystemTime` wall clock)
  is modelled as `ℚ`, in seconds.  `Duration` values are nonnegative
  rationals; `saturating_duration_since` becomes `max 0 (a - b)`.
- The `f64` backoff arithmetic of `util.rs` is modelled exactly in `ℚ`:
  every value the code computes (`1.25^k` for `k ≤ 9`, clamps, `120.0`) is
  a dyadic rational that `f64` represents exactly.  The only exception is
  the literal `0.1`, whose `f64` rounding error is far below the nanosecond
  resolution at which `Duration::from_secs_f64` consumes it, so it is
  modelled as `1/10`.
- HTTP responses are modelled by the fields the code actually reads:
  status code (a `Nat`; `http::StatusCode` guarantees `100..=599`), the
  four headers the Retrier inspects, the `Content-Type` header, and the
  body (`Option String`, `none` meaning the body stream was unreadable).
- JSON parsing/pretty-printing of error bodies (`serde_json::from_str` /
  `to_string_pretty`) is abstracted as a `JsonCodec` parameter carried
  through the definitions; concrete evaluations use a small codec that
  agrees with `serde_json` on every input they touch.
- `u64` arithmetic that can overflow (`Retry-After` seconds `+ 1`) is
  reduced modulo `2 ^ 64`, matching release-mode wrapping.
-/

namespace Minigh

/-! ## Basic data: methods, responses, JSON -/

/-- Model of `Method` (src/lib.rs): the HTTP methods supported by `minigh`. -/
inductive Method where
  | get
  | post
  | patch
  | put
  | delete
deriving DecidableEq, Repr

/-- Model of `Method::is_mutating` (src/lib.rs): POST, PATCH, PUT and DELETE
are mutating. -/
def Method.is_mutating : Method → Bool
  | Method.post => true
  | Method.patch => true
  | Method.put => true
  | Method.delete => true
  | Method.get => false

/-- Model of a JSON document (the fragment relevant to minigh).  Numbers are
restricted to the `u64` range actually distinguished by the page decoder and
the GitHub page metadata (`total_count`). -/
inductive Json where
  | num (n : Nat)
  | bool (b : Bool)
  | str (s : String)
  | arr (xs : List Json)
  | obj (fields : List (String × Json))

/-- Abstraction of the `serde_json` facilities used when capturing error
bodies: `from_str::<serde_json::Value>` and `to_string_pretty`. -/
structure JsonCodec where
  parse : String → Option Json
  pretty : Json → String

/-- Model of an HTTP response as read by minigh: the status code, the four
headers the Retrier inspects (each `none` when absent or not UTF-8), the
`Content-Type` header, and the body as read by `ReadableBody::as_str`
(`none` when the body stream could not be read as a string). -/
structure HttpResponse where
  status : Nat
  retryAfter : Option String
  ratelimitRemaining : Option String
  ratelimitReset : Option String
  contentType : Option String
  body : Option String
deriving DecidableEq, Repr

/-- Model of the `Result<Response<Body>, ureq::Error>` fed to
`Retrier::handle`: either a response or a transport-level error. -/
inductive Transport where
  | ok (r : HttpResponse)
  | err
deriving DecidableEq, Repr

/-- Model of `StatusError` (src/lib.rs): method, URL, status and captured
body of a terminal 4xx/5xx response. -/
structure StatusError where
  method : Method
  url : String
  status : Nat
  body : Option String
deriving DecidableEq, Repr

/-- Model of `RequestError` (src/lib.rs).  The `source` payloads carried by
the Rust enum are dropped; only the discriminating data remains. -/
inductive RequestError where
  | path (p : String)
  | send (method : Method) (url : String)
  | status (e : StatusError)
  | deserialize (method : Method) (url : String)
deriving DecidableEq, Repr

/-- Model of `RetryDecision` (src/util.rs): return the response, or sleep
for the given delay (seconds) and retry. -/
inductive RetryDecision where
  | success (r : HttpResponse)
  | retry (delay : ℚ)
deriving DecidableEq, Repr

/-! ## String helpers used by the code paths under verification -/

/-- Tests whether `needle` is an initial segment of `hay` (character lists). -/
def leadSeq : List Char → List Char → Bool
  | [], _ => true
  | _ :: _, [] => false
  | a :: as, b :: bs => a == b && leadSeq as bs

/-- Tests whether `needle` occurs contiguously inside `hay`. -/
def charsContain (needle : List Char) : List Char → Bool
  | [] => leadSeq needle []
  | c :: rest => leadSeq needle (c :: rest) || charsContain needle rest

/-- Model of `str::contains` with a string pattern, as used for the
`"rate limit"` test in `Retrier::handle`. -/
def strContains (hay needle : String) : Bool :=
  charsContain needle.data hay.data

/-- Numeric value of an ASCII digit. -/
def digitVal (c : Char) : Option Nat :=
  if '0' ≤ c ∧ c ≤ '9' then some (c.toNat - '0'.toNat) else none

/-- Accumulating decimal parse; fails on the first non-digit. -/
def parseDigits : List Char → Nat → Option Nat
  | [], acc => some acc
  | c :: cs, acc =>
    match digitVal c with
    | some d => parseDigits cs (acc * 10 + d)
    | none => none

/-- Model of `str::parse::<u64>()`: an optional leading `+`, then one or
more ASCII digits, rejecting values outside the `u64` range. -/
def parseU64 (s : String) : Option Nat :=
  let cs :=
    match s.data with
    | '+' :: rest => rest
    | cs => cs
  match cs with
  | [] => none
  | _ =>
    (parseDigits cs 0).bind fun n => if n < 2 ^ 64 then some n else none

/-- ASCII lowercasing of a single character (the mime crate lowercases the
type and subtype of a parsed media type). -/
def asciiLowerChar (c : Char) : Char :=
  if 'A' ≤ c ∧ c ≤ 'Z' then Char.ofNat (c.toNat + 32) else c

/-- Characters before the first occurrence of `sep`. -/
def takeUntilChar (sep : Char) : List Char → List Char
  | [] => []
  | c :: rest => if c = sep then [] else c :: takeUntilChar sep rest

/-- Splits at the first occurrence of `sep`, when present. -/
def splitAtChar (sep : Char) : List Char → Option (List Char × List Char)
  | [] => none
  | c :: rest =>
    if c = sep then some ([], rest)
    else (splitAtChar sep rest).map fun p => (c :: p.1, p.2)

/-- Characters after the last occurrence of a `+`, when one exists: the
suffix of a media-type subtype in the sense of the mime crate. -/
def afterLastPlus : List Char → Option (List Char)
  | [] => none
  | c :: rest =>
    match afterLastPlus rest with
    | some s => some s
    | none => if c = '+' then some rest else none

/-- Parses the `type/subtype` essence of a `Content-Type` value, ignoring
parameters after `;`, lowercasing both parts; fails when either part is
empty or the subtype contains a further slash.  This models the mime
crate parse on the well-formed header values minigh meets. -/
def parseMimeEssence (ct : String) : Option (List Char × List Char) :=
  let essence := takeUntilChar ';' ct.data
  match splitAtChar '/' essence with
  | some (ty, sub) =>
    if ty.isEmpty || sub.isEmpty || sub.contains '/' then none
    else some (ty.map asciiLowerChar, sub.map asciiLowerChar)
  | none => none

/-- Model of `is_json_content_type` (src/util.rs): the value parses as a
media type whose type is `application` and whose subtype is `json` or has
suffix `json`. -/
def is_json_content_type (ct : String) : Bool :=
  match parseMimeEssence ct with
  | some (ty, sub) =>
    ty == "application".data && (sub == "json".data || afterLastPlus sub == some "json".data)
  | none => false

/-! ## Response reader / error body capture (src/util.rs) -/

/-- Model of `ReadableResponse::pretty_body`: when the `Content-Type`
header denotes JSON, the body is parsed and re-serialized prettily
(`none` when the body is unreadable or fails to parse); otherwise the raw
body is returned unless it is unreadable or empty. -/
def pretty_body (codec : JsonCodec) (resp : HttpResponse) : Option String :=
  if (resp.contentType.map is_json_content_type).getD false then
    (resp.body.bind codec.parse).map codec.pretty
  else
    resp.body.bind fun s => if s.isEmpty then none else some s

/-- Model of `impl From<ReadableResponse> for StatusError`: capture method,
URL, status and the pretty body. -/
def statusErrorFrom (codec : JsonCodec) (method : Method) (url : String)
    (resp : HttpResponse) : StatusError :=
  ⟨method, url, resp.status, pretty_body codec resp⟩

/-! ## Retrier (src/util.rs) -/

/-- Model of the constant `RETRIES`: maximum number of retries. -/
def RETRIES : Int := 10

/-- Model of the constant `BACKOFF_FACTOR`. -/
def BACKOFF_FACTOR : ℚ := 1

/-- Model of the constant `BACKOFF_BASE` (`1.25` is exactly `5/4`). -/
def BACKOFF_BASE : ℚ := 5 / 4

/-- Model of the constant `BACKOFF_MAX`. -/
def BACKOFF_MAX : ℚ := 120

/-- Model of the constant `TOTAL_WAIT` (300 seconds). -/
def TOTAL_WAIT : ℚ := 300

/-- Model of the constant `MUTATION_DELAY` (1 second). -/
def MUTATION_DELAY : ℚ := 1

/-- Model of `http::StatusCode::is_client_error`: 400 through 499. -/
def is_client_error (s : Nat) : Bool :=
  400 ≤ s && s ≤ 499

/-- Model of `http::StatusCode::is_server_error`: 500 through 599. -/
def is_server_error (s : Nat) : Bool :=
  500 ≤ s && s ≤ 599

/-- Model of `time_till_timestamp` (src/util.rs): the duration until the
wall clock reaches `ts` seconds past the epoch, `none` when that moment
has already passed (`SystemTime::duration_since` errors). -/
def time_till_timestamp (sysNow : ℚ) (ts : Nat) : Option ℚ :=
  if sysNow ≤ (ts : ℚ) then some ((ts : ℚ) - sysNow) else none

/-- Model of the `Retrier` struct (src/util.rs): method, URL, attempt
counter, and the instant beyond which no further retry is attempted. -/
structure Retrier where
  method : Method
  url : String
  attempts : Int
  stopTime : ℚ
deriving DecidableEq, Repr

/-- Model of `Retrier::new`, given the current instant `t0`:
`stop_time = now + TOTAL_WAIT`, zero attempts so far. -/
def Retrier.new (method : Method) (url : String) (t0 : ℚ) : Retrier :=
  ⟨method, url, 0, t0 + TOTAL_WAIT⟩

/-- Model of the `self.attempts += 1` at the top of `Retrier::handle`. -/
def Retrier.step (r : Retrier) : Retrier :=
  { r with attempts := r.attempts + 1 }

/-- Model of the candidate exponential backoff computed by
`Retrier::handle` for the (already incremented) attempt counter: `0.1`
seconds for the first retry, otherwise
`(BACKOFF_FACTOR * BACKOFF_BASE.powi(attempts - 1)).clamp(0.0, BACKOFF_MAX)`. -/
def backoffFor (attempts : Int) : ℚ :=
  if attempts < 2 then BACKOFF_FACTOR * (1 / 10)
  else min (max (BACKOFF_FACTOR * BACKOFF_BASE ^ (attempts - 1).toNat) 0) BACKOFF_MAX

/-- Model of `Retrier::finalize` (src/util.rs): a 4xx/5xx response becomes
a `StatusError`, any other response is returned as success, and a
transport error is wrapped as a send failure. -/
def Retrier.finalize (codec : JsonCodec) (r : Retrier) (resp : Transport) :
    Except RequestError RetryDecision :=
  match resp with
  | Transport.ok resp =>
    if is_client_error resp.status || is_server_error resp.status then
      Except.error (RequestError.status (statusErrorFrom codec r.method r.url resp))
    else
      Except.ok (RetryDecision.success resp)
  | Transport.err => Except.error (RequestError.send r.method r.url)

/-- Decision part of `Retrier::handle` (src/util.rs lines 74-146), taken
after the attempt counter has been incremented (`r` is the stepped state).
`now` is the monotone instant, `sysNow` the wall clock in seconds since
the epoch.  `max 0 (r.stopTime - now)` is the `time_left` of the code. -/
def Retrier.handleDecision (codec : JsonCodec) (now sysNow : ℚ) (r : Retrier)
    (resp : Transport) : Except RequestError RetryDecision :=
  if RETRIES < r.attempts then r.finalize codec resp
  else if max 0 (r.stopTime - now) = 0 then r.finalize codec resp
  else
    match resp with
    | Transport.ok resp =>
      if resp.status = 403 then
        match resp.retryAfter with
        | some v =>
          match (parseU64 v).map (fun n => ((n + 1) % 2 ^ 64 : Nat)) with
          | some delaySecs =>
            if max 0 (r.stopTime - now) < (delaySecs : ℚ) then
              Except.error (RequestError.status (statusErrorFrom codec r.method r.url resp))
            else
              Except.ok (RetryDecision.retry (min (delaySecs : ℚ) (max 0 (r.stopTime - now))))
          | none => Except.ok (RetryDecision.retry (min 0 (max 0 (r.stopTime - now))))
        | none =>
          if (resp.body.map (fun s => strContains s "rate limit")).getD false then
            if resp.ratelimitRemaining = some "0" then
              match resp.ratelimitReset.bind parseU64 with
              | some reset =>
                if max 0 (r.stopTime - now) <
                    (time_till_timestamp sysNow reset).getD 0 + 1 then
                  Except.error (RequestError.status (statusErrorFrom codec r.method r.url resp))
                else
                  Except.ok (RetryDecision.retry
                    (min ((time_till_timestamp sysNow reset).getD 0 + 1)
                      (max 0 (r.stopTime - now))))
              | none => Except.ok (RetryDecision.retry (min 0 (max 0 (r.stopTime - now))))
            else
              Except.ok (RetryDecision.retry
                (min (backoffFor r.attempts) (max 0 (r.stopTime - now))))
          else
            Except.error (RequestError.status (statusErrorFrom codec r.method r.url resp))
      else if is_server_error resp.status then
        Except.ok (RetryDecision.retry (min (backoffFor r.attempts) (max 0 (r.stopTime - now))))
      else if is_client_error resp.status then
        r.finalize codec (Transport.ok resp)
      else
        r.finalize codec (Transport.ok resp)
    | Transport.err =>
      Except.ok (RetryDecision.retry (min (backoffFor r.attempts) (max 0 (r.stopTime - now))))

/-- Model of `Retrier::handle`: increment the attempt counter, then decide.
Returns the updated Retrier together with the decision. -/
def Retrier.handle (codec : JsonCodec) (now sysNow : ℚ) (r : Retrier) (resp : Transport) :
    Retrier × Except RequestError RetryDecision :=
  (r.step, Retrier.handleDecision codec now sysNow r.step resp)

/-- Driver for the retry loop of `Client::request` (src/lib.rs lines
161-190) restricted to the Retrier: feeds successive transport outcomes
(each with the instant and wall clock at which `handle` runs) to the
Retrier until a terminal decision, returning how many times `handle` was
called together with the terminal result.  `none` means the supplied
outcome list was exhausted first. -/
def runRetrier (codec : JsonCodec) :
    List (ℚ × ℚ × Transport) → Retrier → Option (Nat × Except RequestError HttpResponse)
  | [], _ => none
  | (now, sysNow, resp) :: rest, r =>
    match Retrier.handle codec now sysNow r resp with
    | (r', Except.ok (RetryDecision.retry _)) =>
      (runRetrier codec rest r').map fun p => (p.1 + 1, p.2)
    | (_, Except.ok (RetryDecision.success out)) => some (1, Except.ok out)
    | (_, Except.error e) => some (1, Except.error e)

/-! ## Page decoder (src/page.rs) -/

/-- Model of `Page<T>`: the item list with optional `total_count` and
`incomplete_results` metadata. -/
structure Page (T : Type) where
  items : List T
  total_count : Option Nat
  incomplete_results : Option Bool

/-- Model of `ParsePageError::ListQty` together with the serde-level shape
failure of the untagged `RawPage` (`notAPage`: the document is neither an
array of items nor an object). -/
inductive PageError where
  | notAPage
  | listQty (n : Nat)
deriving DecidableEq, Repr

/-- Model of `MapPageValue<T>`: the untagged classification of one
top-level object field. -/
inductive MapPageValue (T : Type) where
  | count (n : Nat)
  | bool (b : Bool)
  | list (xs : List T)
  | other

/-- Model of `MapPageValue::as_u64`. -/
def MapPageValue.as_u64 {T : Type} : MapPageValue T → Option Nat
  | MapPageValue.count n => some n
  | _ => none

/-- Model of `MapPageValue::as_bool`. -/
def MapPageValue.as_bool {T : Type} : MapPageValue T → Option Bool
  | MapPageValue.bool b => some b
  | _ => none

/-- Model of `MapPageValue::into_list`. -/
def MapPageValue.into_list {T : Type} : MapPageValue T → Option (List T)
  | MapPageValue.list xs => some xs
  | _ => none

/-- Element-wise decoding of a JSON array as `Vec<T>`: succeeds exactly
when every element decodes. -/
def decodeList {T : Type} (dec : Json → Option T) : List Json → Option (List T)
  | [] => some []
  | x :: xs =>
    match dec x, decodeList dec xs with
    | some y, some ys => some (y :: ys)
    | _, _ => none

/-- Untagged deserialization of `MapPageValue<T>` from one JSON value,
trying the variants in declaration order: `Count(u64)` on a number,
`Bool` on a boolean, `List(Vec<T>)` on an array whose elements all decode
as `T`, and `Other(IgnoredAny)` on everything else. -/
def decodeMapPageValue {T : Type} (dec : Json → Option T) : Json → MapPageValue T
  | Json.num n => MapPageValue.count n
  | Json.bool b => MapPageValue.bool b
  | Json.arr xs =>
    match decodeList dec xs with
    | some ys => MapPageValue.list ys
    | none => MapPageValue.other
  | _ => MapPageValue.other

/-- First value bound to `k` in an association list (models
`HashMap::get` on maps whose keys are distinct). -/
def assoc {α : Type} (k : String) : List (String × α) → Option α
  | [] => none
  | (k', v) :: rest => if k' = k then some v else assoc k rest

/-- Model of deserializing `Page<T>` from a JSON document, i.e. the
untagged `RawPage<T>` deserialization followed by
`impl TryFrom<RawPage<T>> for Page<T>` (src/page.rs lines 78-112):
a bare array is the item list; an object yields `total_count` from a
`Count`-valued `total_count` field, `incomplete_results` from a
`Bool`-valued `incomplete_results` field, and requires exactly one
`List`-valued field, else `ListQty` with the number found. -/
def decodePage {T : Type} (dec : Json → Option T) : Json → Except PageError (Page T)
  | Json.arr xs =>
    match decodeList dec xs with
    | some items => Except.ok ⟨items, none, none⟩
    | none => Except.error PageError.notAPage
  | Json.obj fields =>
    let map := fields.map fun kv => (kv.1, decodeMapPageValue dec kv.2)
    let total_count := (assoc "total_count" map).bind MapPageValue.as_u64
    let incomplete_results := (assoc "incomplete_results" map).bind MapPageValue.as_bool
    let lists := map.filterMap fun kv => MapPageValue.into_list kv.2
    match lists with
    | [items] => Except.ok ⟨items, total_count, incomplete_results⟩
    | _ => Except.error (PageError.listQty lists.length)
  | _ => Except.error PageError.notAPage

/-- The array-valued top-level fields of a JSON object, in order. -/
def arrayFields (fields : List (String × Json)) : List (List Json) :=
  fields.filterMap fun kv =>
    match kv.2 with
    | Json.arr xs => some xs
    | _ => none

/-- The value of the field named `k` when it is numeric. -/
def numField (fields : List (String × Json)) (k : String) : Option Nat :=
  match assoc k fields with
  | some (Json.num n) => some n
  | _ => none

/-- The value of the field named `k` when it is boolean. -/
def boolField (fields : List (String × Json)) (k : String) : Option Bool :=
  match assoc k fields with
  | some (Json.bool b) => some b
  | _ => none

/-- Specification-side page decoder for `Page<serde_json::Value>`, written
from the words of claim C3 / spec section 4.4: a bare array is the whole
item list with no metadata; for an object, a numeric `total_count` field
supplies `total_count`, a boolean `incomplete_results` field supplies
`incomplete_results`, and decoding succeeds with the unique array-valued
field as items exactly when exactly one array-valued field exists,
otherwise it fails with a page-shape error naming the count found. -/
def pageSpecDecode : Json → Except PageError (Page Json)
  | Json.arr xs => Except.ok ⟨xs, none, none⟩
  | Json.obj fields =>
    match arrayFields fields with
    | [xs] => Except.ok ⟨xs, numField fields "total_count", boolField fields "incomplete_results"⟩
    | _ => Except.error (PageError.listQty (arrayFields fields).length)
  | _ => Except.error PageError.notAPage

/-- Distinctness of the top-level keys of a JSON document (trivial off
objects): JSON objects deserialized into a `HashMap` are observed with
distinct keys. -/
def topKeysNodup : Json → Bool
  | Json.obj fields => decide (fields.map Prod.fst).Nodup
  | _ => true

/-! ## Pagination iterator (src/page.rs) -/

/-- Mutable state of `PaginationIter` (the borrowed client is external):
the optional next-page URL and the buffered item cursor. -/
structure PaginationIter (T : Type) where
  next_url : Option String
  items : Option (List T)
deriving Repr

/-- Outcome of one `client.request` + `read_json::<Page<T>>` + `Link`
header extraction round-trip for a given URL: a request error, a decode
error, or a page of items together with the `rel="next"` URL. -/
inductive FetchResult (T : Type) where
  | reqErr (e : RequestError)
  | decodeErr
  | page (pageItems : List T) (next : Option String)

/-- Model of `PaginationIter::next` (src/page.rs lines 31-58), with the
client round-trip abstracted as `oracle` and the refill loop bounded by
`fuel` (`none` = fuel exhausted).  Yields `some (some item, s)`,
`some (some error, s)` or `some (none, s)` for iterator exhaustion; in
every case `s` is the state left behind for the following call.  The code
sets `items` to `None` when the cursor is spent, `take`s `next_url`
before fetching, returns request/decode errors before storing a new
`next_url`, and refills then loops on success. -/
def pagNext {T : Type} (oracle : String → FetchResult T) :
    Nat → PaginationIter T → Option (Option (Except RequestError T) × PaginationIter T)
  | 0, _ => none
  | fuel + 1, s =>
    match s.items with
    | some (x :: rest) => some (some (Except.ok x), ⟨s.next_url, some rest⟩)
    | _ =>
      match s.next_url with
      | some url =>
        match oracle url with
        | FetchResult.reqErr e => some (some (Except.error e), ⟨none, none⟩)
        | FetchResult.decodeErr =>
          some (some (Except.error (RequestError.deserialize Method.get url)), ⟨none, none⟩)
        | FetchResult.page pageItems next => pagNext oracle fuel ⟨next, some pageItems⟩
      | none => some (none, ⟨none, none⟩)

/-! ## Client request path (src/lib.rs) -/

/-- The client-side state `Client::request` manipulates over time: the
current monotone instant and the `last_mutation` cell. -/
structure ClientState where
  now : ℚ
  lastMutation : Option ℚ
deriving DecidableEq, Repr

/-- Record of one send attempt in the request loop: the instant at which
the attempt started and the value of the `last_mutation` cell at that
moment (after the loop has updated it for mutating methods). -/
structure AttemptRec where
  sendTime : ℚ
  lastMutAtSend : Option ℚ
deriving DecidableEq, Repr

/-- Model of the mutation throttle at the top of `Client::request`
(src/lib.rs lines 150-159): for a mutating method with a recorded prior
mutation, sleep for `MUTATION_DELAY.saturating_sub(now.saturating_duration_since(lastmut))`
when that is nonzero.  Sleeping advances the clock. -/
def throttle (m : Method) (s : ClientState) : ClientState :=
  if m.is_mutating then
    match s.lastMutation with
    | some lastmut =>
      let delay := max 0 (MUTATION_DELAY - max 0 (s.now - lastmut))
      if delay = 0 then s else { s with now := s.now + delay }
    | none => s
  else s

/-- Model of the retry loop of `Client::request` (src/lib.rs lines
161-190): on each iteration, a mutating method first stores `now` into
the `last_mutation` cell; the attempt is sent (taking `elapsed` seconds),
the outcome goes through `Retrier::handle`, and a retry decision sleeps
for the returned delay before looping.  Produces the list of attempt
records, the final client state and the terminal result; `none` means the
outcome list ran out while the loop still wanted to retry. -/
def requestLoop (codec : JsonCodec) (m : Method) :
    List (ℚ × ℚ × Transport) → Retrier → ClientState →
    Option (List AttemptRec × ClientState × Except RequestError HttpResponse)
  | [], _, _ => none
  | (elapsed, sysNow, resp) :: rest, r, s =>
    let s1 : ClientState := if m.is_mutating then ⟨s.now, some s.now⟩ else s
    let att : AttemptRec := ⟨s1.now, s1.lastMutation⟩
    let s2 : ClientState := ⟨s1.now + elapsed, s1.lastMutation⟩
    match Retrier.handle codec s2.now sysNow r resp with
    | (r', Except.ok (RetryDecision.retry d)) =>
      (requestLoop codec m rest r' ⟨s2.now + d, s2.lastMutation⟩).map
        fun p => (att :: p.1, p.2)
    | (_, Except.ok (RetryDecision.success out)) => some ([att], s2, Except.ok out)
    | (_, Except.error e) => some ([att], s2, Except.error e)

/-- Model of `Client::request` for a fixed logical request: mutation
throttle, then the Retrier-driven loop with a fresh `Retrier` whose
deadline starts after the throttle. -/
def clientRequest (codec : JsonCodec) (m : Method) (url : String)
    (outcomes : List (ℚ × ℚ × Transport)) (s : ClientState) :
    Option (List AttemptRec × ClientState × Except RequestError HttpResponse) :=
  let s := throttle m s
  requestLoop codec m outcomes (Retrier.new m url s.now) s

/-! ## Concrete material for witnesses and evaluations -/

/-- Fragment of the `serde_json` codec sufficient for the concrete
evaluations in this file: it agrees with `serde_json` on every input it
is applied to below (the strings `"[]"`, `"garbage"` and `""`, and
pretty-printing of the empty array). -/
def egCodec : JsonCodec where
  parse := fun s => if s = "[]" then some (Json.arr []) else none
  pretty := fun _ => "[]"

/-- A plain 500 response with no headers and an unreadable body. -/
def resp500 : HttpResponse := ⟨500, none, none, none, none, none⟩

/-- A 403 response with `Retry-After: 5`. -/
def resp403ra5 : HttpResponse := ⟨403, some "5", none, none, none, some "slow down"⟩

/-- A 403 response with an unparseable `Retry-After` value. -/
def resp403raBad : HttpResponse := ⟨403, some "soon", none, none, none, some "slow down"⟩

/-- A 403 response whose `Retry-After` value is `u64::MAX`, the one
parseable value at which the code's `n + 1` wraps to zero. -/
def respRAmax : HttpResponse :=
  ⟨403, some "18446744073709551615", none, none, none, some "slow down"⟩

/-- A 403 primary-rate-limit response: body mentions the rate limit,
remaining quota 0, reset at epoch second 130. -/
def resp403rl : HttpResponse :=
  ⟨403, none, some "0", some "130", none, some "API rate limit exceeded"⟩

/-- A 403 response unrelated to rate limiting. -/
def resp403plain : HttpResponse := ⟨403, none, none, none, none, some "forbidden"⟩

/-- A plain 404 response. -/
def resp404 : HttpResponse := ⟨404, none, none, none, none, some "not found"⟩

/-- A 404 response declaring a JSON content type whose body does not parse
as JSON. -/
def respBadJson : HttpResponse :=
  ⟨404, none, none, none, some "application/json", some "garbage"⟩

/-- An ambiguous object page: two array-valued fields. -/
def docAmb : Json :=
  Json.obj
    [("total_count", Json.num 3),
     ("w1", Json.arr [Json.obj [("a", Json.num 1)]]),
     ("w2", Json.arr [Json.obj [("b", Json.num 2)]])]

/-- A pagination oracle whose every fetch fails at the transport level. -/
def oracleErr : String → FetchResult Nat :=
  fun _ => FetchResult.reqErr (RequestError.send Method.get "u")

/-! ## Helper lemmas about the Retrier -/

@[simp] lemma step_attempts (r : Retrier) : r.step.attempts = r.attempts + 1 := rfl

@[simp] lemma step_stopTime (r : Retrier) : r.step.stopTime = r.stopTime := rfl

@[simp] lemma step_method (r : Retrier) : r.step.method = r.method := rfl

@[simp] lemma step_url (r : Retrier) : r.step.url = r.url := rfl

/-- With attempts or the budget exhausted, `handleDecision` is `finalize`. -/
lemma handleDecision_exhausted (codec : JsonCodec) (now sysNow : ℚ) (r : Retrier)
    (resp : Transport) (h : RETRIES < r.attempts ∨ max 0 (r.stopTime - now) = 0) :
    Retrier.handleDecision codec now sysNow r resp = r.finalize codec resp := by
  rcases h with h | h
  · unfold Retrier.handleDecision
    rw [if_pos h]
  · unfold Retrier.handleDecision
    by_cases h1 : RETRIES < r.attempts
    · rw [if_pos h1]
    · rw [if_neg h1, if_pos h]

/-- `finalize` never decides to retry. -/
lemma finalize_ne_retry (codec : JsonCodec) (r : Retrier) (resp : Transport) (d : ℚ) :
    r.finalize codec resp ≠ Except.ok (RetryDecision.retry d) := by
  cases resp with
  | ok resp =>
    simp only [Retrier.finalize]
    split <;> simp
  | err => simp [Retrier.finalize]

/-- A retry decision is only possible while attempts remain. -/
lemma handleDecision_retry_bound (codec : JsonCodec) (now sysNow : ℚ) (r : Retrier)
    (resp : Transport) (d : ℚ)
    (h : Retrier.handleDecision codec now sysNow r resp = Except.ok (RetryDecision.retry d)) :
    r.attempts ≤ RETRIES := by
  by_contra hc
  rw [handleDecision_exhausted codec now sysNow r resp (Or.inl (by omega))] at h
  exact finalize_ne_retry codec r resp d h

/-! ## Claim theorems -/

/-- Claim C4: for the first retry (attempt index 1) the exponential-backoff
candidate delay is exactly 0.1 seconds; for attempt index at least 2 it is
`min(120, 1.25^(attempt-1))` seconds. -/
theorem C4_backoff_formula (a : Int) :
    backoffFor 1 = 1 / 10 ∧
    (2 ≤ a → backoffFor a = min 120 ((5 / 4 : ℚ) ^ (a - 1).toNat)) := by
  constructor
  · unfold backoffFor
    norm_num [BACKOFF_FACTOR]
  · intro ha
    unfold backoffFor
    rw [if_neg (by omega)]
    have hpos : (0 : ℚ) ≤ (5 / 4 : ℚ) ^ (a - 1).toNat := by positivity
    simp only [BACKOFF_FACTOR, BACKOFF_BASE, BACKOFF_MAX, one_mul]
    rw [max_eq_left hpos, min_comm]

/-- Witness for C4 at attempt index 5. -/
theorem C4_backoff_formula_witness :
    backoffFor 1 = 1 / 10 ∧
    backoffFor 5 = min 120 ((5 / 4 : ℚ) ^ ((5 : Int) - 1).toNat) :=
  ⟨(C4_backoff_formula 5).1, (C4_backoff_formula 5).2 (by omega)⟩

/-- Claim C10: a 403 response whose `Retry-After` value does not parse as
an unsigned integer, met with attempts and budget remaining, is neither a
failure nor treated as unrelated to rate limiting: the Retrier returns a
retry decision with a zero-second delay, skipping the budget-exceedance
check of the `Retry-After` path. -/
theorem C10_unparseable_retry_after (codec : JsonCodec) (r : Retrier)
    (resp : HttpResponse) (now sysNow : ℚ) (v : String)
    (hatt : r.attempts ≤ 9) (htime : now < r.stopTime)
    (hstatus : resp.status = 403) (hra : resp.retryAfter = some v)
    (hparse : parseU64 v = none) :
    (Retrier.handle codec now sysNow r (Transport.ok resp)).2 =
      Except.ok (RetryDecision.retry 0) := by
  have h0 : (0 : ℚ) < r.stopTime - now := by linarith
  have hTL : max 0 (r.stopTime - now) = r.stopTime - now := max_eq_right h0.le
  show Retrier.handleDecision codec now sysNow r.step (Transport.ok resp) = _
  unfold Retrier.handleDecision
  rw [if_neg (show ¬ RETRIES < r.step.attempts by
        simp only [step_attempts, RETRIES]; omega)]
  rw [if_neg (show ¬ max 0 (r.step.stopTime - now) = 0 by
        simp only [step_stopTime]; rw [hTL]; exact ne_of_gt h0)]
  simp only [step_stopTime, hstatus, hra, hparse, if_pos, Option.map_none']
  rw [hTL, min_eq_left h0.le]

/-- Witness for C10: `Retry-After: soon` on a fresh Retrier retries with
zero delay. -/
theorem C10_unparseable_retry_after_witness :
    (Retrier.handle egCodec 0 0 (Retrier.new Method.get "u" 0) (Transport.ok resp403raBad)).2 =
      Except.ok (RetryDecision.retry 0) :=
  C10_unparseable_retry_after egCodec (Retrier.new Method.get "u" 0) resp403raBad 0 0 "soon"
    (by norm_num [Retrier.new]) (by norm_num [Retrier.new, TOTAL_WAIT]) rfl rfl rfl

/-- Claim C5, as amended by the wrap counterexample below: a 403 response
whose `Retry-After` header parses as `n` seconds with `n + 1 < 2^64`
makes the Retrier retry after exactly `n + 1` seconds, except that when
`n + 1` strictly exceeds the remaining budget it finalizes immediately as
a `StatusError` failure.  Stated for an active Retrier (attempts and
budget remaining).  At the one excluded value `n = 2^64 - 1` the code's
`n + 1` wraps to zero and the Retrier retries immediately instead of
finalizing (see the counterexample). -/
theorem C5_retry_after_delay (codec : JsonCodec) (r : Retrier) (resp : HttpResponse)
    (now sysNow : ℚ) (v : String) (n : Nat)
    (hatt : r.attempts ≤ 9) (htime : now < r.stopTime)
    (hstatus : resp.status = 403) (hra : resp.retryAfter = some v)
    (hparse : parseU64 v = some n) (hn : n + 1 < 2 ^ 64) :
    ((n : ℚ) + 1 ≤ r.stopTime - now →
      (Retrier.handle codec now sysNow r (Transport.ok resp)).2 =
        Except.ok (RetryDecision.retry ((n : ℚ) + 1))) ∧
    (r.stopTime - now < (n : ℚ) + 1 →
      (Retrier.handle codec now sysNow r (Transport.ok resp)).2 =
        Except.error (RequestError.status (statusErrorFrom codec r.method r.url resp))) := by
  have h0 : (0 : ℚ) < r.stopTime - now := by linarith
  have hTL : max 0 (r.stopTime - now) = r.stopTime - now := max_eq_right h0.le
  have hred :
      (Retrier.handle codec now sysNow r (Transport.ok resp)).2 =
        (if r.stopTime - now < (n : ℚ) + 1 then
          Except.error (RequestError.status (statusErrorFrom codec r.method r.url resp))
        else
          Except.ok (RetryDecision.retry (min ((n : ℚ) + 1) (r.stopTime - now)))) := by
    show Retrier.handleDecision codec now sysNow r.step (Transport.ok resp) = _
    unfold Retrier.handleDecision
    rw [if_neg (show ¬ RETRIES < r.step.attempts by
          simp only [step_attempts, RETRIES]; omega)]
    rw [if_neg (show ¬ max 0 (r.step.stopTime - now) = 0 by
          simp only [step_stopTime]; rw [hTL]; exact ne_of_gt h0)]
    simp only [step_stopTime, step_method, step_url, hstatus, hra, hparse, if_pos,
      Option.map_some', Nat.mod_eq_of_lt hn, hTL]
    push_cast
    rfl
  constructor
  · intro hle
    rw [hred, if_neg (not_lt.mpr hle), min_eq_left hle]
  · intro hlt
    rw [hred, if_pos hlt]

/-- Witness for C5: `Retry-After: 5` on a fresh Retrier produces a retry
delay of exactly 6 seconds. -/
theorem C5_retry_after_delay_witness :
    (Retrier.handle egCodec 0 0 (Retrier.new Method.get "u" 0) (Transport.ok resp403ra5)).2 =
      Except.ok (RetryDecision.retry ((5 : ℚ) + 1)) :=
  (C5_retry_after_delay egCodec (Retrier.new Method.get "u" 0) resp403ra5 0 0 "5" 5
      (by norm_num [Retrier.new]) (by norm_num [Retrier.new, TOTAL_WAIT]) rfl rfl rfl
      (by norm_num)).1
    (by norm_num [Retrier.new, TOTAL_WAIT])

/-- At `Retry-After` = `u64::MAX`, the wrapped `n + 1` is zero and the
budget check cannot fire: an active Retrier retries with zero delay. -/
lemma handleDecision_retry_after_wrap (codec : JsonCodec) (r : Retrier)
    (resp : HttpResponse) (now sysNow : ℚ) (v : String)
    (hatt : r.attempts ≤ 9) (htime : now < r.stopTime)
    (hstatus : resp.status = 403) (hra : resp.retryAfter = some v)
    (hparse : parseU64 v = some (2 ^ 64 - 1)) :
    (Retrier.handle codec now sysNow r (Transport.ok resp)).2 =
      Except.ok (RetryDecision.retry 0) := by
  have h0 : (0 : ℚ) < r.stopTime - now := by linarith
  have hTL : max 0 (r.stopTime - now) = r.stopTime - now := max_eq_right h0.le
  have hmod : (2 ^ 64 - 1 + 1) % 2 ^ 64 = (0 : Nat) := by norm_num
  show Retrier.handleDecision codec now sysNow r.step (Transport.ok resp) = _
  unfold Retrier.handleDecision
  rw [if_neg (show ¬ RETRIES < r.step.attempts by
        simp only [step_attempts, RETRIES]; omega)]
  rw [if_neg (show ¬ max 0 (r.step.stopTime - now) = 0 by
        simp only [step_stopTime]; rw [hTL]; exact ne_of_gt h0)]
  simp only [step_stopTime, hstatus, hra, hparse, Option.map_some', hmod, Nat.cast_zero,
    if_pos, hTL]
  rw [if_neg (show ¬ r.stopTime - now < (0 : ℚ) by linarith), min_eq_left h0.le]

/-- Counterexample to claim C5 as stated: at the concrete input
`Retry-After: 18446744073709551615` (which `parse::<u64>` accepts as
`n = 2^64 - 1`), `n + 1` far exceeds the fresh Retrier's 300-second
budget, yet the Retrier neither retries after `n + 1` seconds nor
finalizes as a `StatusError` — it retries with zero delay, because
`n + 1` wraps to zero before the budget check. -/
theorem C5_retry_after_delay_counterexample :
    parseU64 "18446744073709551615" = some (2 ^ 64 - 1) ∧
    (Retrier.new Method.get "u" 0).stopTime - 0 < ((2 ^ 64 - 1 : Nat) : ℚ) + 1 ∧
    (Retrier.handle egCodec 0 0 (Retrier.new Method.get "u" 0) (Transport.ok respRAmax)).2 =
      Except.ok (RetryDecision.retry 0) ∧
    ¬ ((Retrier.handle egCodec 0 0 (Retrier.new Method.get "u" 0)
          (Transport.ok respRAmax)).2 =
        Except.ok (RetryDecision.retry (((2 ^ 64 - 1 : Nat) : ℚ) + 1)) ∨
      (Retrier.handle egCodec 0 0 (Retrier.new Method.get "u" 0)
          (Transport.ok respRAmax)).2 =
        Except.error (RequestError.status (statusErrorFrom egCodec Method.get "u" respRAmax))) := by
  have hparse : parseU64 "18446744073709551615" = some (2 ^ 64 - 1) := by decide
  have hrun :
      (Retrier.handle egCodec 0 0 (Retrier.new Method.get "u" 0) (Transport.ok respRAmax)).2 =
        Except.ok (RetryDecision.retry 0) :=
    handleDecision_retry_after_wrap egCodec (Retrier.new Method.get "u" 0) respRAmax 0 0
      "18446744073709551615" (by norm_num [Retrier.new])
      (by norm_num [Retrier.new, TOTAL_WAIT]) rfl rfl hparse
  refine ⟨hparse, ?_, hrun, ?_⟩
  · norm_num [Retrier.new, TOTAL_WAIT]
  · intro h
    rcases h with h | h <;> rw [hrun] at h
    · injection h with h2
      injection h2 with h3
      norm_num at h3
    · exact Except.noConfusion h

/-- Claim C6: a 403 response with no `Retry-After`, a body mentioning the
rate limit, `X-RateLimit-Remaining: 0` and a parseable `X-RateLimit-Reset`
timestamp makes the Retrier compute
`delay = (time until the reset timestamp, clamped at 0 when past) + 1`
and either retry after exactly that delay or, when it strictly exceeds
the remaining budget, finalize immediately as a `StatusError` failure.
Stated for an active Retrier. -/
theorem C6_primary_rate_limit (codec : JsonCodec) (r : Retrier) (resp : HttpResponse)
    (now sysNow : ℚ) (v : String) (ts : Nat)
    (hatt : r.attempts ≤ 9) (htime : now < r.stopTime)
    (hstatus : resp.status = 403) (hra : resp.retryAfter = none)
    (hbody : (resp.body.map fun s => strContains s "rate limit").getD false = true)
    (hrem : resp.ratelimitRemaining = some "0")
    (hreset : resp.ratelimitReset = some v) (hts : parseU64 v = some ts) :
    (time_till_timestamp sysNow ts).getD 0 + 1 = max 0 ((ts : ℚ) - sysNow) + 1 ∧
    ((time_till_timestamp sysNow ts).getD 0 + 1 ≤ r.stopTime - now →
      (Retrier.handle codec now sysNow r (Transport.ok resp)).2 =
        Except.ok (RetryDecision.retry ((time_till_timestamp sysNow ts).getD 0 + 1))) ∧
    (r.stopTime - now < (time_till_timestamp sysNow ts).getD 0 + 1 →
      (Retrier.handle codec now sysNow r (Transport.ok resp)).2 =
        Except.error (RequestError.status (statusErrorFrom codec r.method r.url resp))) := by
  have h0 : (0 : ℚ) < r.stopTime - now := by linarith
  have hTL : max 0 (r.stopTime - now) = r.stopTime - now := max_eq_right h0.le
  have hclamp : (time_till_timestamp sysNow ts).getD 0 + 1 = max 0 ((ts : ℚ) - sysNow) + 1 := by
    unfold time_till_timestamp
    by_cases hc : sysNow ≤ (ts : ℚ)
    · rw [if_pos hc, Option.getD_some, max_eq_right (by linarith)]
    · rw [if_neg hc, Option.getD_none, max_eq_left (by push_neg at hc; linarith)]
  have hred :
      (Retrier.handle codec now sysNow r (Transport.ok resp)).2 =
        (if r.stopTime - now < (time_till_timestamp sysNow ts).getD 0 + 1 then
          Except.error (RequestError.status (statusErrorFrom codec r.method r.url resp))
        else
          Except.ok (RetryDecision.retry
            (min ((time_till_timestamp sysNow ts).getD 0 + 1) (r.stopTime - now)))) := by
    show Retrier.handleDecision codec now sysNow r.step (Transport.ok resp) = _
    unfold Retrier.handleDecision
    rw [if_neg (show ¬ RETRIES < r.step.attempts by
          simp only [step_attempts, RETRIES]; omega)]
    rw [if_neg (show ¬ max 0 (r.step.stopTime - now) = 0 by
          simp only [step_stopTime]; rw [hTL]; exact ne_of_gt h0)]
    simp only [step_stopTime, step_method, step_url, hstatus, hra, hbody, hrem, hreset,
      Option.some_bind, hts, if_pos, hTL]
  refine ⟨hclamp, ?_, ?_⟩
  · intro hle
    rw [hred, if_neg (not_lt.mpr hle), min_eq_left hle]
  · intro hlt
    rw [hred, if_pos hlt]

/-- Witness for C6: reset 30 seconds away (wall clock 100, reset 130)
yields a retry delay of 31 seconds on a fresh Retrier. -/
theorem C6_primary_rate_limit_witness :
    (Retrier.handle egCodec 0 100 (Retrier.new Method.get "u" 0) (Transport.ok resp403rl)).2 =
      Except.ok (RetryDecision.retry ((time_till_timestamp 100 130).getD 0 + 1)) :=
  (C6_primary_rate_limit egCodec (Retrier.new Method.get "u" 0) resp403rl 0 100 "130" 130
      (by norm_num [Retrier.new]) (by norm_num [Retrier.new, TOTAL_WAIT]) rfl rfl rfl rfl rfl
      rfl).2.1
    (by norm_num [time_till_timestamp, Retrier.new, TOTAL_WAIT])

/-- Claim C7: every 4xx response other than 403, and every 403 response
with no `Retry-After` whose body does not mention the rate limit, makes
the Retrier finalize immediately as a `StatusError` failure with zero
retries, regardless of how many attempts or how much budget remain. -/
theorem C7_client_error_no_retry (codec : JsonCodec) (r : Retrier) (resp : HttpResponse)
    (now sysNow : ℚ)
    (h : (400 ≤ resp.status ∧ resp.status ≤ 499 ∧ resp.status ≠ 403) ∨
      (resp.status = 403 ∧ resp.retryAfter = none ∧
        (resp.body.map fun s => strContains s "rate limit").getD false = false)) :
    (Retrier.handle codec now sysNow r (Transport.ok resp)).2 =
      Except.error (RequestError.status (statusErrorFrom codec r.method r.url resp)) := by
  have hclient : is_client_error resp.status = true := by
    rcases h with ⟨h1, h2, _⟩ | ⟨h1, _, _⟩
    · simp [is_client_error, h1, h2]
    · simp [is_client_error, h1]
  have hfin : r.step.finalize codec (Transport.ok resp) =
      Except.error (RequestError.status (statusErrorFrom codec r.method r.url resp)) := by
    simp only [Retrier.finalize, hclient, Bool.true_or, if_pos, step_method, step_url]
  show Retrier.handleDecision codec now sysNow r.step (Transport.ok resp) = _
  by_cases hex : RETRIES < r.step.attempts ∨ max 0 (r.step.stopTime - now) = 0
  · rw [handleDecision_exhausted codec now sysNow r.step (Transport.ok resp) hex, hfin]
  · push_neg at hex
    unfold Retrier.handleDecision
    rw [if_neg (not_lt.mpr hex.1), if_neg hex.2]
    rcases h with ⟨h1, h2, h3⟩ | ⟨h1, h2, h3⟩
    · have hserver : is_server_error resp.status = false := by
        simp only [is_server_error, Bool.and_eq_false_iff, decide_eq_false_iff_not]
        omega
      simp only [if_neg h3, hserver, Bool.false_eq_true, if_false, hclient, if_true, hfin]
    · simp only [h1, h2, h3, if_pos, Bool.false_eq_true, if_false, step_method, step_url]

/-- A run of the Retrier loop makes calls bounded by the attempts left. -/
lemma runRetrier_bound (codec : JsonCodec) :
    ∀ (outs : List (ℚ × ℚ × Transport)) (r : Retrier) (n : Nat)
      (out : Except RequestError HttpResponse),
      r.attempts ≤ RETRIES → runRetrier codec outs r = some (n, out) →
      (n : Int) ≤ 11 - r.attempts := by
  intro outs
  induction outs with
  | nil =>
    intro r n out _ h
    simp [runRetrier] at h
  | cons head rest ih =>
    obtain ⟨now, sysNow, resp⟩ := head
    intro r n out hr h
    simp only [runRetrier] at h
    split at h
    · rename_i r' d heq
      simp only [Retrier.handle] at heq
      injection heq with hr' hd
      subst hr'
      have hb : r.step.attempts ≤ RETRIES :=
        handleDecision_retry_bound codec now sysNow r.step resp d hd
      simp only [Option.map_eq_some'] at h
      obtain ⟨⟨n', out'⟩, hrun, heq2⟩ := h
      injection heq2 with hn hout
      have := ih r.step n' out' hb hrun
      simp only [step_attempts] at this hb
      simp only [RETRIES] at hb hr
      omega
    · rename_i out' heq
      injection h with h2
      injection h2 with hn hout
      simp only [RETRIES] at hr
      omega
    · rename_i e heq
      injection h with h2
      injection h2 with hn hout
      simp only [RETRIES] at hr
      omega

/-- With attempts remaining and at least as many outcomes as attempts
left, the Retrier loop reaches a terminal decision. -/
lemma runRetrier_total (codec : JsonCodec) :
    ∀ (outs : List (ℚ × ℚ × Transport)) (r : Retrier),
      r.attempts ≤ RETRIES → 11 - r.attempts ≤ (outs.length : Int) →
      (runRetrier codec outs r).isSome = true := by
  intro outs
  induction outs with
  | nil =>
    intro r h1 h2
    simp only [List.length_nil, Nat.cast_zero] at h2
    simp only [RETRIES] at h1
    omega
  | cons head rest ih =>
    obtain ⟨now, sysNow, resp⟩ := head
    intro r h1 h2
    simp only [runRetrier]
    split
    · rename_i r' d heq
      simp only [Retrier.handle] at heq
      injection heq with hr' hd
      subst hr'
      have hb : r.step.attempts ≤ RETRIES :=
        handleDecision_retry_bound codec now sysNow r.step resp d hd
      rw [Option.isSome_map']
      apply ih r.step hb
      simp only [List.length_cons] at h2
      simp only [step_attempts] at hb ⊢
      simp only [RETRIES] at hb
      push_cast at h2 ⊢
      omega
    · simp
    · simp

/-- Claim C1: for every logical request and every sequence of transport
outcomes, the Retrier reaches a terminal decision within at most 11 calls
to `handle` (so its attempt counter, which counts those calls, never
exceeds 11); and a `handle` call made with attempts or the 300-second
budget exhausted, whose outcome is a 4xx/5xx response, terminates with a
`StatusError` reflecting that final response. -/
theorem C1_retrier_attempt_bound (codec : JsonCodec) (m : Method) (url : String) (t0 : ℚ)
    (outs : List (ℚ × ℚ × Transport)) :
    (∀ n out, runRetrier codec outs (Retrier.new m url t0) = some (n, out) → n ≤ 11) ∧
    (11 ≤ outs.length → ∃ p, runRetrier codec outs (Retrier.new m url t0) = some p) ∧
    (∀ (r : Retrier) (resp : HttpResponse) (now sysNow : ℚ),
      10 ≤ r.attempts ∨ r.stopTime ≤ now →
      (is_client_error resp.status || is_server_error resp.status) = true →
      (Retrier.handle codec now sysNow r (Transport.ok resp)).2 =
        Except.error (RequestError.status (statusErrorFrom codec r.method r.url resp))) := by
  refine ⟨?_, ?_, ?_⟩
  · intro n out h
    have hb := runRetrier_bound codec outs (Retrier.new m url t0) n out
      (by simp [Retrier.new, RETRIES]) h
    simp only [Retrier.new] at hb
    omega
  · intro hlen
    have hs := runRetrier_total codec outs (Retrier.new m url t0)
      (by simp [Retrier.new, RETRIES])
      (by simp only [Retrier.new]; push_cast; omega)
    rcases ho : runRetrier codec outs (Retrier.new m url t0) with _ | p
    · rw [ho] at hs; simp at hs
    · exact ⟨p, rfl⟩
  · intro r resp now sysNow hex hcs
    have hx : RETRIES < r.step.attempts ∨ max 0 (r.step.stopTime - now) = 0 := by
      rcases hex with h | h
      · left
        simp only [step_attempts, RETRIES]
        omega
      · right
        simp only [step_stopTime]
        exact max_eq_left (by linarith)
    show Retrier.handleDecision codec now sysNow r.step (Transport.ok resp) = _
    rw [handleDecision_exhausted codec now sysNow r.step (Transport.ok resp) hx]
    simp only [Retrier.finalize, hcs, if_pos, step_method, step_url]

/-- Witness for C1: eleven consecutive 500 responses terminate within 11
calls. -/
theorem C1_retrier_attempt_bound_witness :
    ∃ p, runRetrier egCodec (List.replicate 11 ((1 : ℚ), (0 : ℚ), Transport.ok resp500))
        (Retrier.new Method.get "u" 0) = some p ∧ p.1 ≤ 11 := by
  obtain ⟨p, hp⟩ :=
    (C1_retrier_attempt_bound egCodec Method.get "u" 0
      (List.replicate 11 ((1 : ℚ), (0 : ℚ), Transport.ok resp500))).2.1 (by simp)
  exact ⟨p, hp,
    (C1_retrier_attempt_bound egCodec Method.get "u" 0
      (List.replicate 11 ((1 : ℚ), (0 : ℚ), Transport.ok resp500))).1 p.1 p.2 hp⟩

/-- Witness for C7: a 404 finalizes immediately as a `StatusError`, and so
does a 403 with no `Retry-After` and a body not mentioning the rate
limit. -/
theorem C7_client_error_no_retry_witness :
    (Retrier.handle egCodec 0 0 (Retrier.new Method.get "u" 0) (Transport.ok resp404)).2 =
      Except.error (RequestError.status (statusErrorFrom egCodec Method.get "u" resp404)) ∧
    (Retrier.handle egCodec 0 0 (Retrier.new Method.get "u" 0) (Transport.ok resp403plain)).2 =
      Except.error (RequestError.status (statusErrorFrom egCodec Method.get "u" resp403plain)) :=
  ⟨C7_client_error_no_retry egCodec (Retrier.new Method.get "u" 0) resp404 0 0
      (Or.inl ⟨by norm_num [resp404], by norm_num [resp404], by norm_num [resp404]⟩),
    C7_client_error_no_retry egCodec (Retrier.new Method.get "u" 0) resp403plain 0 0
      (Or.inr ⟨rfl, rfl, rfl⟩)⟩

/-- Claim C2, evaluated at the failing input: a 404 response declaring
`Content-Type: application/json` with the readable, nonempty body
`"garbage"`, which is not valid JSON.  The claim (and the doc comments of
`pretty_body` and `StatusError::body` in the source) prescribe the raw
body text as fallback; the code yields `none` because the JSON branch of
`pretty_body` drops the body when parsing fails. -/
theorem C2_json_parse_failure_body_none :
    is_json_content_type "application/json" = true ∧
    egCodec.parse "garbage" = none ∧
    pretty_body egCodec respBadJson = none ∧
    (statusErrorFrom egCodec Method.get "u" respBadJson).body = none :=
  ⟨rfl, rfl, rfl, rfl⟩

/-- Decoding with the identity element decoder (items of type
`serde_json::Value`) accepts every list unchanged. -/
lemma decodeList_id (xs : List Json) : decodeList (fun j => some j) xs = some xs := by
  induction xs with
  | nil => rfl
  | cons x xs ih => simp [decodeList, ih]

/-- `assoc` commutes with mapping over the values. -/
lemma assoc_map {α β : Type} (f : α → β) (k : String) :
    ∀ l : List (String × α), assoc k (l.map fun kv => (kv.1, f kv.2)) = (assoc k l).map f := by
  intro l
  induction l with
  | nil => rfl
  | cons kv rest ih =>
    obtain ⟨k', v⟩ := kv
    by_cases h : k' = k
    · simp [assoc, h]
    · simp [assoc, h, ih]

/-- On the identity decoder, `into_list` of the classified value picks out
exactly the array-valued fields. -/
lemma into_list_decode (v : Json) :
    MapPageValue.into_list (decodeMapPageValue (fun j => some j) v) =
      (match v with | Json.arr xs => some xs | _ => none) := by
  cases v <;> simp [decodeMapPageValue, decodeList_id, MapPageValue.into_list]

/-- On the identity decoder, `as_u64` of the classified value picks out
exactly numeric fields. -/
lemma as_u64_decode (fields : List (String × Json)) (k : String) :
    ((assoc k fields).map (decodeMapPageValue (fun j => some j))).bind MapPageValue.as_u64 =
      numField fields k := by
  unfold numField
  cases h : assoc k fields with
  | none => rfl
  | some v => cases v <;> simp [decodeMapPageValue, MapPageValue.as_u64, decodeList_id]

/-- On the identity decoder, `as_bool` of the classified value picks out
exactly boolean fields. -/
lemma as_bool_decode (fields : List (String × Json)) (k : String) :
    ((assoc k fields).map (decodeMapPageValue (fun j => some j))).bind MapPageValue.as_bool =
      boolField fields k := by
  unfold boolField
  cases h : assoc k fields with
  | none => rfl
  | some v => cases v <;> simp [decodeMapPageValue, MapPageValue.as_bool, decodeList_id]

/-- On the identity decoder, the candidate item lists of an object are its
array-valued fields, in order. -/
lemma lists_decode (fields : List (String × Json)) :
    (fields.map fun kv => (kv.1, decodeMapPageValue (fun j => some j) kv.2)).filterMap
        (fun kv => MapPageValue.into_list kv.2) =
      arrayFields fields := by
  unfold arrayFields
  induction fields with
  | nil => rfl
  | cons kv rest ih =>
    simp only [List.map_cons, List.filterMap_cons, into_list_decode, ih]

/-- Claim C3: on documents of item type `serde_json::Value` (the identity
element decoder), the page decoder agrees with the decoder prescribed by
the spec: a bare array is the whole item list with no metadata; an object
yields `total_count` from a numeric `total_count` field and
`incomplete_results` from a boolean `incomplete_results` field, succeeds
with the unique array-valued field as items exactly when exactly one
array-valued field exists, and otherwise fails with a page-shape error
naming the count found.  Stated for objects with distinct keys, the only
ones the `HashMap`-based code can observe. -/
theorem C3_page_decoder (doc : Json) (hkeys : topKeysNodup doc = true) :
    decodePage (fun j => some j) doc = pageSpecDecode doc := by
  cases doc with
  | num n => rfl
  | bool b => rfl
  | str s => rfl
  | arr xs => simp [decodePage, pageSpecDecode, decodeList_id]
  | obj fields =>
    simp only [decodePage, pageSpecDecode]
    rw [assoc_map, assoc_map, as_u64_decode, as_bool_decode, lists_decode]
    split
    · rename_i items heq
      rw [heq]
    · rename_i hns
      split
      · rename_i xs heq2
        exact absurd heq2 (hns xs)
      · rfl

/-- Witness for C3 at the ambiguous document of the spec
(`total_count` plus two array-valued fields): both decoders report an
ambiguous-page error naming 2 candidates. -/
theorem C3_page_decoder_witness :
    decodePage (fun j => some j) docAmb = Except.error (PageError.listQty 2) ∧
    pageSpecDecode docAmb = Except.error (PageError.listQty 2) :=
  ⟨(C3_page_decoder docAmb (by decide)).trans rfl, rfl⟩

/-- A call of `PaginationIter::next` that reports exhaustion or an error
leaves the iterator in the empty state. -/
lemma pagNext_terminal {T : Type} (oracle : String → FetchResult T) :
    ∀ (fuel : Nat) (s s' : PaginationIter T) (res : Option (Except RequestError T)),
      pagNext oracle fuel s = some (res, s') →
      (res = none ∨ ∃ e, res = some (Except.error e)) →
      s' = ⟨none, none⟩ := by
  intro fuel
  induction fuel with
  | zero =>
    intro s s' res h _
    simp [pagNext] at h
  | succ k ih =>
    intro s s' res h hterm
    rw [pagNext] at h
    split at h
    · rename_i x rest heq
      injection h with h2
      injection h2 with hres hs
      rcases hterm with ht | ⟨e, ht⟩ <;> rw [← hres] at ht <;> simp at ht
    · split at h
      · rename_i url heq2
        split at h
        · injection h with h2
          injection h2 with hres hs
          exact hs.symm
        · injection h with h2
          injection h2 with hres hs
          exact hs.symm
        · exact ih _ _ _ h hterm
      · injection h with h2
        injection h2 with hres hs
        exact hs.symm

/-- Claim C8: the pagination iterator is fused — once a call to `next` has
returned `none` (buffer empty, no next-page URL) or yielded an error,
every later call returns `none` from the same empty state. -/
theorem C8_pagination_fused {T : Type} (oracle : String → FetchResult T)
    (fuel fuel' : Nat) (s s' : PaginationIter T) (res : Option (Except RequestError T))
    (hrun : pagNext oracle fuel s = some (res, s'))
    (hterm : res = none ∨ ∃ e, res = some (Except.error e))
    (hfuel : 0 < fuel') :
    pagNext oracle fuel' s' = some (none, s') := by
  have hs : s' = ⟨none, none⟩ := pagNext_terminal oracle fuel s s' res hrun hterm
  subst hs
  obtain ⟨k, rfl⟩ : ∃ k, fuel' = k + 1 := ⟨fuel' - 1, by omega⟩
  rfl

/-- Witness for C8: after a failed fetch the iterator stays exhausted. -/
theorem C8_pagination_fused_witness :
    pagNext oracleErr 1 (⟨none, none⟩ : PaginationIter Nat) = some (none, ⟨none, none⟩) :=
  C8_pagination_fused oracleErr 1 1 ⟨some "u", none⟩ ⟨none, none⟩
    (some (Except.error (RequestError.send Method.get "u")))
    rfl (Or.inr ⟨_, rfl⟩) (by omega)

/-- In a run of the request loop with a mutating method, every attempt
record carries a `last_mutation` stamp equal to its own send instant. -/
lemma requestLoop_mut_trace (codec : JsonCodec) (m : Method) (hm : m.is_mutating = true) :
    ∀ (outs : List (ℚ × ℚ × Transport)) (r : Retrier) (s : ClientState)
      (tr : List AttemptRec) (s' : ClientState) (out : Except RequestError HttpResponse),
      requestLoop codec m outs r s = some (tr, s', out) →
      ∀ a ∈ tr, a.lastMutAtSend = some a.sendTime := by
  intro outs
  induction outs with
  | nil =>
    intro r s tr s' out h
    simp [requestLoop] at h
  | cons head rest ih =>
    obtain ⟨elapsed, sysNow, resp⟩ := head
    intro r s tr s' out h
    simp only [requestLoop, hm, if_pos] at h
    split at h
    · rename_i r' d heq
      simp only [Option.map_eq_some'] at h
      obtain ⟨⟨tr', s'', out'⟩, hrun, heq2⟩ := h
      injection heq2 with htr hrest
      subst htr
      intro a ha
      rcases List.mem_cons.mp ha with ha | ha
      · subst ha
        rfl
      · exact ih r' _ tr' s'' out' hrun a ha
    · rename_i out' heq
      injection h with h2
      injection h2 with htr hrest
      subst htr
      intro a ha
      rcases List.mem_cons.mp ha with ha | ha
      · subst ha
        rfl
      · simp at ha
    · rename_i e heq
      injection h with h2
      injection h2 with htr hrest
      subst htr
      intro a ha
      rcases List.mem_cons.mp ha with ha | ha
      · subst ha
        rfl
      · simp at ha

/-- A run of the request loop with a non-mutating method never touches the
`last_mutation` cell: the final state keeps the initial stamp and every
attempt observed the initial stamp. -/
lemma requestLoop_nonmut_trace (codec : JsonCodec) (m : Method) (hm : m.is_mutating = false) :
    ∀ (outs : List (ℚ × ℚ × Transport)) (r : Retrier) (s : ClientState)
      (tr : List AttemptRec) (s' : ClientState) (out : Except RequestError HttpResponse),
      requestLoop codec m outs r s = some (tr, s', out) →
      s'.lastMutation = s.lastMutation ∧ ∀ a ∈ tr, a.lastMutAtSend = s.lastMutation := by
  intro outs
  induction outs with
  | nil =>
    intro r s tr s' out h
    simp [requestLoop] at h
  | cons head rest ih =>
    obtain ⟨elapsed, sysNow, resp⟩ := head
    intro r s tr s' out h
    simp only [requestLoop, hm, Bool.false_eq_true, if_false] at h
    split at h
    · rename_i r' d heq
      simp only [Option.map_eq_some'] at h
      obtain ⟨⟨tr', s'', out'⟩, hrun, heq2⟩ := h
      injection heq2 with htr hrest
      subst htr
      injection hrest with hs hout
      subst hs
      obtain ⟨ih1, ih2⟩ := ih r' _ tr' s'' out' hrun
      refine ⟨ih1, ?_⟩
      intro a ha
      rcases List.mem_cons.mp ha with ha | ha
      · subst ha
        rfl
      · exact ih2 a ha
    · rename_i out' heq
      injection h with h2
      injection h2 with htr hrest
      subst htr
      injection hrest with hs hout
      subst hs
      refine ⟨rfl, ?_⟩
      intro a ha
      rcases List.mem_cons.mp ha with ha | ha
      · subst ha
        rfl
      · simp at ha
    · rename_i e heq
      injection h with h2
      injection h2 with htr hrest
      subst htr
      injection hrest with hs hout
      subst hs
      refine ⟨rfl, ?_⟩
      intro a ha
      rcases List.mem_cons.mp ha with ha | ha
      · subst ha
        rfl
      · simp at ha

/-- Claim C9: a mutating request started less than 1 second after the
prior mutating request blocks until exactly 1 second has elapsed since
that prior start; the `last_mutation` stamp is set to the current instant
immediately before every mutating attempt, retries included; and GET
requests neither wait on nor update the stamp. -/
theorem C9_mutation_throttle (codec : JsonCodec) (m : Method) (s : ClientState) (t : ℚ)
    (outs : List (ℚ × ℚ × Transport)) (r : Retrier) :
    (m.is_mutating = true → s.lastMutation = some t → t ≤ s.now → s.now - t < 1 →
      throttle m s = ⟨t + 1, s.lastMutation⟩) ∧
    (m.is_mutating = true →
      ∀ tr s' out, requestLoop codec m outs r s = some (tr, s', out) →
        ∀ a ∈ tr, a.lastMutAtSend = some a.sendTime) ∧
    (m = Method.get →
      throttle m s = s ∧
      ∀ tr s' out, requestLoop codec m outs r s = some (tr, s', out) →
        s'.lastMutation = s.lastMutation ∧ ∀ a ∈ tr, a.lastMutAtSend = s.lastMutation) := by
  refine ⟨?_, ?_, ?_⟩
  · intro hm hlm ht hlt
    have h1 : max 0 (s.now - t) = s.now - t := max_eq_right (by linarith)
    have hd : (0 : ℚ) < MUTATION_DELAY - (s.now - t) := by
      unfold MUTATION_DELAY
      linarith
    have h2 : max 0 (MUTATION_DELAY - (s.now - t)) = MUTATION_DELAY - (s.now - t) :=
      max_eq_right hd.le
    simp only [throttle, hm, if_pos, hlm, h1, h2]
    rw [if_neg (ne_of_gt hd)]
    have hsum : s.now + (MUTATION_DELAY - (s.now - t)) = t + 1 := by
      unfold MUTATION_DELAY
      ring
    rw [hsum]
  · intro hm tr s' out h
    exact requestLoop_mut_trace codec m hm outs r s tr s' out h
  · intro hget
    subst hget
    refine ⟨rfl, ?_⟩
    intro tr s' out h
    exact requestLoop_nonmut_trace codec Method.get rfl outs r s tr s' out h

/-- Witness for C9: a POST half a second after a mutation at instant 0
blocks until instant 1 exactly, and a GET does not wait. -/
theorem C9_mutation_throttle_witness :
    throttle Method.post ⟨1 / 2, some 0⟩ = ⟨(0 : ℚ) + 1, some 0⟩ ∧
    throttle Method.get ⟨1 / 2, some 0⟩ = ⟨1 / 2, some 0⟩ :=
  ⟨(C9_mutation_throttle egCodec Method.post ⟨1 / 2, some 0⟩ 0 []
        (Retrier.new Method.post "u" 0)).1 rfl rfl (by norm_num) (by norm_num),
    ((C9_mutation_throttle egCodec Method.get ⟨1 / 2, some 0⟩ 0 []
        (Retrier.new Method.get "u" 0)).2.2 rfl).1⟩

end Minigh
